import Mathlib

/-!
Shallow embedding of the Action Intent Pipeline of the repository:
the Intent Parser (`ActionProcessor.parseUserRequest`), the Action
Executor (`ActionProcessor.executeAction` and its per-variant handlers),
and the Confirmation Gate (`ActionProcessor.confirmAction` together with
the `pendingConfirmations` map), from
`src/server/services/actionProcessor.ts`, with the Action Schema from
`src/shared/actions.ts` (zod) and the record store from
`src/server/storage.ts` (`MemStorage`).

Modelling conventions:
* JSON values decoded by `JSON.parse` are the inductive `Json` below.
  The external text-generation oracle (`chatWithAI`) and `JSON.parse`
  are external boundaries; an oracle interaction is represented by its
  decoding outcome (`OracleResponse`): the call threw, the response text
  was not valid JSON, or it decoded to a `Json` value.
* JavaScript exceptions are explicit: a step that can throw returns an
  `Option`, and the surrounding `try/catch` blocks of the source become
  `match`es on that option.  State mutations performed before a throw
  are retained, exactly as in the source.
* `randomUUID` (used both for record ids and for confirmation tokens)
  is modelled as an injective generator `mkId` driven by a counter
  `nextId` in the state; freshness of generated ids is the content of
  `randomUUID` that the pipeline relies on.
* `Date` timestamps (`createdAt`/`updatedAt`) are not modelled: no
  observable behaviour of the pipeline depends on them.
* The filesystem mirror (`fileSystemService`) and the Python sandbox
  (`pythonExecutor`) are external collaborators: their effects are
  recorded as logs in the state (`mirror`, `sandbox`), and their
  success/failure is supplied by an environment `Env`.
-/

/-- JSON values, the result of `JSON.parse` on the oracle's response.
Numbers are modelled as integers; no schema field is numeric. -/
inductive Json where
  | null
  | bool (b : Bool)
  | num (n : Int)
  | str (s : String)
  | arr (xs : List Json)
  | obj (fields : List (String × Json))

/-- Association-list lookup, first match wins (JavaScript objects and
`Map`s produced by `JSON.parse`/`Map.set` have unique keys, and our
insertions shadow older bindings, so first-match lookup agrees with
the `Map`/object semantics). -/
def alookup {α : Type} (k : String) : List (String × α) → Option α
  | [] => none
  | (k', v) :: rest => if k' = k then some v else alookup k rest

/-- `Map.prototype.delete` / removal of a binding. -/
def aerase {α : Type} (k : String) (l : List (String × α)) : List (String × α) :=
  l.filter (fun p => p.1 != k)

/-- `Map.prototype.set` / property write on a fresh or existing key:
the new binding shadows any older one (first-match lookup). -/
def ainsert {α : Type} (k : String) (v : α) (l : List (String × α)) : List (String × α) :=
  (k, v) :: l

/-- Property read `j.k` for a non-nullish `j`: a value on objects,
`undefined` (here `none`) on primitives and arrays.  Reading a property
of `null` throws in JavaScript and is handled separately at call sites. -/
def getField (j : Json) (k : String) : Option Json :=
  match j with
  | .obj fields => alookup k fields
  | _ => none

/-- Property assignment `j.k = v` on an object: replaces the existing
binding of `k`, or appends one if absent. -/
def setField (j : Json) (k : String) (v : Json) : Json :=
  match j with
  | .obj fields =>
      if fields.any (fun p => p.1 == k) then
        .obj (fields.map (fun p => if p.1 = k then (k, v) else p))
      else
        .obj (fields ++ [(k, v)])
  | other => other

/-- JavaScript truthiness of a possibly-absent value
(`undefined`, `null`, `false`, `0`, `""` are falsy). -/
def truthy : Option Json → Bool
  | none => false
  | some .null => false
  | some (.bool b) => b
  | some (.num n) => n != 0
  | some (.str s) => s != ""
  | some (.arr _) => true
  | some (.obj _) => true

/-- Is this JSON value `null`?  (Property access on `null` throws.) -/
def Json.isNull : Json → Bool
  | .null => true
  | _ => false

/-! ## The Action Schema (`src/shared/actions.ts`)

The closed, tagged union `ChatAction = z.discriminatedUnion('type', ...)`.
Validated actions are the inductive `ChatActionType`; `chatActionParse`
is `ChatAction.parse` turned total: `some` on success, `none` where zod
would throw.  Unknown extra fields are stripped, as zod does by default. -/

inductive ChatActionType where
  | create_project (name : String) (projectType : String)
      (description : Option String) (template : Option String)
  | add_file (projectId : String) (name : String) (content : String)
      (path : String) (fileType : String)
  | update_file (fileId : String) (content : Option String)
      (path : Option String) (name : Option String)
  | delete_file (fileId : String)
  | create_web_page (projectId : String) (pageName : String)
      (pageType : String) (style : Option String)
      (features : Option (List String))
  | modify_apk (projectId : String) (action : String)
      (parameters : List (String × Json))
  | run_python (code : String) (description : Option String)
  | generate_code_snippet (language : String) (description : String)
      (context : Option String)

/-- `z.string()` on a field value. -/
def asString : Json → Option String
  | .str s => some s
  | _ => none

/-- `z.string()` on a required field. -/
def reqString (fields : List (String × Json)) (k : String) : Option String :=
  (alookup k fields).bind asString

/-- `z.string().min(1)` on a required field. -/
def reqStringMin1 (fields : List (String × Json)) (k : String) : Option String :=
  match reqString fields k with
  | some s => if s = "" then none else some s
  | none => none

/-- `z.enum([...])` on a required field. -/
def reqEnum (allowed : List String) (fields : List (String × Json)) (k : String) :
    Option String :=
  match reqString fields k with
  | some s => if allowed.contains s then some s else none
  | none => none

/-- `z.string().optional()`: an absent key is `undefined`, which the
optional schema accepts; a present key must be a string (`null` fails). -/
def optString (fields : List (String × Json)) (k : String) : Option (Option String) :=
  match alookup k fields with
  | none => some none
  | some (.str s) => some (some s)
  | some _ => none

/-- `z.enum([...]).optional()`. -/
def optEnum (allowed : List String) (fields : List (String × Json)) (k : String) :
    Option (Option String) :=
  match alookup k fields with
  | none => some none
  | some (.str s) => if allowed.contains s then some (some s) else none
  | some _ => none

/-- `z.array(z.string()).optional()`. -/
def optStringArray (fields : List (String × Json)) (k : String) :
    Option (Option (List String)) :=
  match alookup k fields with
  | none => some none
  | some (.arr xs) => (xs.mapM asString).map some
  | some _ => none

/-- `z.record(z.any())` on a required field: any plain object
(arrays and `null` are rejected by `z.record`). -/
def reqRecord (fields : List (String × Json)) (k : String) :
    Option (List (String × Json)) :=
  match alookup k fields with
  | some (.obj o) => some o
  | _ => none

/-- `ChatAction.parse`: validate an arbitrary JSON value against the
discriminated union of the eight variants.  `none` models a thrown
`ZodError`. -/
def chatActionParse (j : Json) : Option ChatActionType :=
  match j with
  | .obj fields =>
    match alookup "type" fields with
    | some (.str t) =>
      if t = "create_project" then
        match reqStringMin1 fields "name",
              reqEnum ["web", "apk", "python"] fields "projectType",
              optString fields "description",
              optEnum ["blank", "basic_website", "react_app", "android_app"]
                fields "template" with
        | some name, some pt, some descr, some tmpl =>
            some (.create_project name pt descr tmpl)
        | _, _, _, _ => none
      else if t = "add_file" then
        match reqString fields "projectId",
              reqStringMin1 fields "name",
              reqString fields "content",
              reqString fields "path",
              reqEnum ["html", "css", "js", "py", "xml", "java", "kt", "smali"]
                fields "fileType" with
        | some pid, some name, some content, some path, some ft =>
            some (.add_file pid name content path ft)
        | _, _, _, _, _ => none
      else if t = "update_file" then
        match reqString fields "fileId",
              optString fields "content",
              optString fields "path",
              optString fields "name" with
        | some fid, some c, some p, some n => some (.update_file fid c p n)
        | _, _, _, _ => none
      else if t = "delete_file" then
        match reqString fields "fileId" with
        | some fid => some (.delete_file fid)
        | none => none
      else if t = "create_web_page" then
        match reqString fields "projectId",
              reqStringMin1 fields "pageName",
              reqEnum ["landing", "contact", "about", "blog", "product", "service"]
                fields "pageType",
              optEnum ["modern", "classic", "minimal", "colorful"] fields "style",
              optStringArray fields "features" with
        | some pid, some pn, some pt, some st, some fe =>
            some (.create_web_page pid pn pt st fe)
        | _, _, _, _, _ => none
      else if t = "modify_apk" then
        match reqString fields "projectId",
              reqEnum ["change_icon", "modify_strings", "add_feature", "change_theme"]
                fields "action",
              reqRecord fields "parameters" with
        | some pid, some act, some params => some (.modify_apk pid act params)
        | _, _, _ => none
      else if t = "run_python" then
        match reqStringMin1 fields "code", optString fields "description" with
        | some code, some descr => some (.run_python code descr)
        | _, _ => none
      else if t = "generate_code_snippet" then
        match reqString fields "language",
              reqStringMin1 fields "description",
              optString fields "context" with
        | some lang, some descr, some ctxt =>
            some (.generate_code_snippet lang descr ctxt)
        | _, _, _ => none
      else none
    | _ => none
  | _ => none

/-! ## The Intent Parser (`ActionProcessor.parseUserRequest`)

The oracle call and `JSON.parse` are external; an interaction is
represented by its decoding outcome.  The source wraps everything after
the oracle call in a `try`/`catch (parseError)` whose handler returns
the "could not understand" clarification, and the whole method in an
outer `try`/`catch` returning the generic error clarification. -/

/-- Outcome of the `chatWithAI` call followed by `JSON.parse`:
the oracle call threw, its text failed to decode, or it decoded. -/
inductive OracleResponse where
  | failure
  | notJson
  | json (v : Json)

/-- The parse context (`context` parameter of `parseUserRequest`). -/
structure Ctx where
  projectId : Option String
  currentFile : Option String
  fileContent : Option String

/-- The value returned by `parseUserRequest`.  `clarificationMessage`
is passed through verbatim from the decoded oracle value, so it is an
arbitrary JSON value (the source annotates it `string?` but does not
enforce it). -/
structure ParseResult where
  actions : List ChatActionType
  needsMoreInfo : Bool
  clarificationMessage : Option Json

/-- Clarification produced when the oracle text fails to decode as
JSON, or a `TypeError` is thrown while inspecting the decoded value
(the inner `catch (parseError)` branch). -/
def couldNotParseMsg : String :=
  "No pude entender tu solicitud. ¿Podrías ser más específico sobre lo que quieres hacer?"

/-- Clarification produced when the oracle call itself throws
(the outer `catch` branch). -/
def genericErrorMsg : String :=
  "Hubo un error procesando tu solicitud. ¿Podrías intentar de nuevo?"

/-- The `"current"` placeholder substitution performed on a non-null
candidate before validation: `action.projectId === "current" &&
context?.projectId` (note the truthiness test: an empty-string context
projectId does not trigger substitution). -/
def substituteCurrent (ctx : Ctx) (c : Json) : Json :=
  match getField c "projectId", ctx.projectId with
  | some (.str s), some pid =>
      if s = "current" && pid != "" then setField c "projectId" (.str pid) else c
  | _, _ => none.getD c

/-- The validation loop over the normalized candidate array.  Reading
`candidate.projectId` on a `null` candidate throws a `TypeError` that is
caught by the surrounding `catch (parseError)`, discarding the whole
batch: that is the `none` result.  Otherwise each candidate is
substituted, then validated, and validation failures are dropped
individually (`try { ChatAction.parse } catch { log }`). -/
def processCandidates (ctx : Ctx) : List Json → Option (List ChatActionType)
  | [] => some []
  | .null :: _ => none
  | c :: cs =>
    match processCandidates ctx cs with
    | none => none
    | some rest =>
        some ((chatActionParse (substituteCurrent ctx c)).toList ++ rest)

/-- `ActionProcessor.parseUserRequest`, as a function of the oracle
interaction's outcome.  A decoded `null` throws at the
`parsed.needsMoreInfo` property read, landing in the inner catch. -/
def parseUserRequest (resp : OracleResponse) (ctx : Ctx) : ParseResult :=
  match resp with
  | .failure => ⟨[], true, some (.str genericErrorMsg)⟩
  | .notJson => ⟨[], true, some (.str couldNotParseMsg)⟩
  | .json .null => ⟨[], true, some (.str couldNotParseMsg)⟩
  | .json parsed =>
    if truthy (getField parsed "needsMoreInfo") then
      ⟨[], true, getField parsed "clarificationMessage"⟩
    else
      let candidates := match parsed with
        | .arr xs => xs
        | v => [v]
      match processCandidates ctx candidates with
      | none => ⟨[], true, some (.str couldNotParseMsg)⟩
      | some acts => ⟨acts, false, none⟩

/-! ## State, environment, and the record store (`src/server/storage.ts`)

`MemStorage` keeps projects/files in `Map`s keyed by `randomUUID`
strings.  The pipeline state `St` bundles those maps with the
Confirmation Gate's `pendingConfirmations` map, the id counter backing
`mkId`, and the logs of external effects. -/

/-- `randomUUID`, modelled as an injective id generator driven by the
`nextId` counter: a fresh opaque string per draw. -/
def mkId (n : Nat) : String :=
  String.mk (List.replicate n 'x')

/-- A project record (`projects` table; timestamps elided). -/
structure Project where
  id : String
  name : String
  type : String
  description : String
  files : List (String × String)

/-- A file record (`files` table; timestamps elided). -/
structure StoredFile where
  id : String
  projectId : String
  path : String
  name : String
  content : String
  type : String
  isModified : Bool

/-- An entry of `pendingConfirmations`: `{ action, userId? }`
(the `modify_apk` handler registers `{ action }`, omitting the user). -/
structure PendingEntry where
  action : ChatActionType
  userId : Option String

/-- A call to the filesystem mirror (`fileSystemService`). -/
inductive MirrorOp where
  | createProject (projectId : String) (name : String)
  | createFile (projectId : String) (path : String) (content : String)
  | updateFile (projectId : String) (path : String) (content : String)

/-- A result of `pythonExecutor.executeCode`. -/
structure PyResult where
  success : Bool
  output : String
  error : Option String

/-- The pipeline's mutable state: the record store's maps, the
Confirmation Gate's pending map, the id counter, and the logs of
successfully issued external calls (filesystem mirror, sandbox). -/
structure St where
  projects : List (String × Project)
  files : List (String × StoredFile)
  pending : List (String × PendingEntry)
  nextId : Nat
  mirror : List MirrorOp
  sandbox : List String

/-- Draw a fresh id (`randomUUID()`), bumping the counter. -/
def freshId (s : St) : String × St :=
  (mkId s.nextId, { s with nextId := s.nextId + 1 })

/-- A file description in the skeleton returned by the
`generateProjectStructure` oracle call. -/
structure GenFile where
  name : String
  path : String
  content : String
  type : String

/-- Outcomes of the external collaborators for one execution: whether
the oracle skeleton generation succeeds and with which files, which
filesystem-mirror calls throw, the sandbox's result, and the snippet
oracle's result.  `none`/`false` model a thrown rejection. -/
structure Env where
  projectStructure : Option (List GenFile)
  fsCreateProjectOk : Bool
  fsCreateFileOk : String → Bool
  fsUpdateFileOk : Bool
  python : PyResult
  genCode : Option String

/-- The structured payload carried in an `ActionOutcome`'s `data`. -/
inductive OutcomeData where
  | projectFiles (project : Project) (files : List StoredFile)
  | file (f : StoredFile)
  | python (r : PyResult)
  | snippet (code : String) (language : String)

/-- `ActionResponse`: result of executing one action.  Fields left out
by a source `return` are `false`/`none` here. -/
structure ActionOutcome where
  success : Bool
  message : String
  data : Option OutcomeData
  requiresConfirmation : Bool
  confirmationMessage : Option String
  actionId : Option String

/-- An outcome carrying only `success:false` and a message. -/
def plainFail (m : String) : ActionOutcome :=
  ⟨false, m, none, false, none, none⟩

/-- `MemStorage.createProject`: assign a fresh id and store the record. -/
def storageCreateProject (name ptype descr : String)
    (fls : List (String × String)) (s : St) : Project × St :=
  let (id, s1) := freshId s
  let proj : Project := ⟨id, name, ptype, descr, fls⟩
  (proj, { s1 with projects := ainsert id proj s1.projects })

/-- `MemStorage.createFile`: assign a fresh id and store the record. -/
def storageCreateFile (projectId name path content ftype : String)
    (isModified : Bool) (s : St) : StoredFile × St :=
  let (id, s1) := freshId s
  let f : StoredFile := ⟨id, projectId, path, name, content, ftype, isModified⟩
  (f, { s1 with files := ainsert id f s1.files })

/-- The partial-update record the `update_file` handler builds
(`{...file, ...fileUpdate}` merge in `MemStorage.updateFile`). -/
structure FilePatch where
  content : Option String
  path : Option String
  name : Option String
  isModified : Option Bool

/-- `{...file, ...patch}`: fields present in the patch win. -/
def applyPatch (f : StoredFile) (p : FilePatch) : StoredFile :=
  { f with
    content := p.content.getD f.content
    path := p.path.getD f.path
    name := p.name.getD f.name
    isModified := p.isModified.getD f.isModified }

/-- `MemStorage.updateFile`: merge the patch into the record if it
exists, else return `undefined` without touching the store. -/
def storageUpdateFile (id : String) (p : FilePatch) (s : St) :
    Option StoredFile × St :=
  match alookup id s.files with
  | none => (none, s)
  | some f =>
      let f' := applyPatch f p
      (some f', { s with files := ainsert id f' s.files })

/-! ## The Action Executor (`ActionProcessor.executeAction` and handlers)

Each handler's `try/catch` becomes explicit control flow: the only
throwing operations are the external collaborators, whose outcome the
`Env` fixes.  State mutations before a throw are retained. -/

/-- Failure message of `createProject` (the interpolated error detail
of the caught exception is elided; no claim inspects it). -/
def createProjectErrMsg : String := "Error creando el proyecto."

/-- The `for (const fileData of projectStructure.files)` loop of
`createProject`: persist a file record, then mirror it; a mirror throw
aborts the loop with the record already persisted.  Returns the created
records (in order) on success, `none` on a throw. -/
def createFilesLoop (env : Env) (pid : String) :
    List GenFile → St → Option (List StoredFile) × St
  | [], s => (some [], s)
  | gf :: rest, s =>
    let r := storageCreateFile pid gf.name gf.path gf.content gf.type false s
    if env.fsCreateFileOk gf.path then
      let s2 := { r.2 with
        mirror := r.2.mirror ++ [MirrorOp.createFile pid gf.path gf.content] }
      match createFilesLoop env pid rest s2 with
      | (some fs, s3) => (some (r.1 :: fs), s3)
      | (none, s3) => (none, s3)
    else (none, r.2)

/-- The project description actually stored:
`action.description || "Proyecto <type> creado con IA"` — JavaScript
`||` falls back on the default for an absent or empty description. -/
def projDescription (ptype : String) (descr : Option String) : String :=
  match descr with
  | some d0 => if d0 = "" then "Proyecto " ++ ptype ++ " creado con IA" else d0
  | none => "Proyecto " ++ ptype ++ " creado con IA"

/-- `ActionProcessor.createProject`: generate the skeleton first (a
throw aborts before any persistence), then persist the project record,
mirror the project directory, and persist/mirror each generated file. -/
def createProject (env : Env) (name ptype : String) (descr : Option String)
    (s : St) : ActionOutcome × St :=
  match env.projectStructure with
  | none => (plainFail createProjectErrMsg, s)
  | some gfs =>
    match storageCreateProject name ptype (projDescription ptype descr) [] s with
    | (project, s1) =>
      if env.fsCreateProjectOk then
        match createFilesLoop env project.id gfs
            { s1 with
              mirror := s1.mirror ++ [MirrorOp.createProject project.id project.name] } with
        | (some createdFiles, s3) =>
            (⟨true,
              "Proyecto \"" ++ name ++ "\" creado exitosamente.",
              some (.projectFiles project createdFiles), false, none, none⟩, s3)
        | (none, s3) => (plainFail createProjectErrMsg, s3)
      else (plainFail createProjectErrMsg, s1)

/-- `ActionProcessor.addFile`: persist the record, then mirror it. -/
def addFile (env : Env) (pid name content path ftype : String) (s : St) :
    ActionOutcome × St :=
  let r := storageCreateFile pid name path content ftype false s
  if env.fsCreateFileOk path then
    (⟨true, "Archivo \"" ++ name ++ "\" agregado exitosamente.",
      some (.file r.1), false, none, none⟩,
     { r.2 with mirror := r.2.mirror ++ [MirrorOp.createFile pid path content] })
  else (plainFail "Error agregando el archivo.", r.2)

/-- `ActionProcessor.updateFile`: build a patch from the fields present
in the action, always setting `isModified`; merge it into the record if
it exists; mirror the new content when `content` was supplied. -/
def updateFileAct (env : Env) (fileId : String)
    (content path name : Option String) (s : St) : ActionOutcome × St :=
  match storageUpdateFile fileId ⟨content, path, name, some true⟩ s with
  | (none, s1) => (plainFail "Archivo no encontrado.", s1)
  | (some f, s1) =>
    match content with
    | some c =>
      if env.fsUpdateFileOk then
        (⟨true, "Archivo \"" ++ f.name ++ "\" actualizado exitosamente.",
          some (.file f), false, none, none⟩,
         { s1 with mirror := s1.mirror ++ [MirrorOp.updateFile f.projectId f.path c] })
      else (plainFail "Error actualizando el archivo.", s1)
    | none =>
        (⟨true, "Archivo \"" ++ f.name ++ "\" actualizado exitosamente.",
          some (.file f), false, none, none⟩, s1)

/-- `ActionProcessor.deleteFile`: look up, then delete the record
(`Map.delete` of a present key returns `true`, so the
`if (!deleted)` branch is unreachable); the filesystem deletion is
commented out in the source. -/
def deleteFileAct (fileId : String) (s : St) : ActionOutcome × St :=
  match alookup fileId s.files with
  | none => (plainFail "Archivo no encontrado.", s)
  | some f =>
      (⟨true, "Archivo \"" ++ f.name ++ "\" eliminado exitosamente.",
        none, false, none, none⟩,
       { s with files := aerase fileId s.files })

/-- The `for (const fileData of pageStructure.files)` loop of
`createWebPage`: records only, namespaced under the page name; no
mirror calls (none of these steps throws in the model). -/
def createPageFilesLoop (pid pageName : String) :
    List GenFile → St → List StoredFile × St
  | [], s => ([], s)
  | gf :: rest, s =>
    let r := storageCreateFile pid (pageName ++ "-" ++ gf.name)
      ("/pages/" ++ pageName ++ "/" ++ gf.name) gf.content gf.type false s
    let r2 := createPageFilesLoop pid pageName rest r.2
    (r.1 :: r2.1, r2.2)

/-- `ActionProcessor.createWebPage`: ask the oracle for a page file set,
then persist each file (no storage mirroring, by design). -/
def createWebPage (env : Env) (pid pageName : String) (s : St) :
    ActionOutcome × St :=
  match env.projectStructure with
  | none => (plainFail "Error creando la página.", s)
  | some gfs =>
    let r := createPageFilesLoop pid pageName gfs s
    (⟨true, "Página \"" ++ pageName ++ "\" creada exitosamente.",
      none, false, none, none⟩, r.2)

/-- The confirmation question `modifyApk` builds for the action. -/
def apkConfirmMsg (act : String) : String :=
  "¿Estás seguro de que quieres " ++ act ++
    " en tu APK? Esta operación puede afectar la funcionalidad de la aplicación."

/-- `ActionProcessor.modifyApk`: never executes; mint a fresh token,
register the action with the Confirmation Gate (`{ action }`, no
userId), and return a confirmation-required outcome. -/
def modifyApk (pid act : String) (params : List (String × Json)) (s : St) :
    ActionOutcome × St :=
  let r := freshId s
  let s2 := { r.2 with
    pending := ainsert r.1 ⟨.modify_apk pid act params, none⟩ r.2.pending }
  (⟨false, "La modificación de APK es una operación compleja.",
    none, true, some (apkConfirmMsg act), some r.1⟩, s2)

/-- `ActionProcessor.runPython`: forward the code to the sandbox and
wrap its result. -/
def runPython (env : Env) (code : String) (s : St) : ActionOutcome × St :=
  (⟨env.python.success,
    if env.python.success then "Código Python ejecutado exitosamente."
    else "Error ejecutando código Python.",
    some (.python env.python), false, none, none⟩,
   { s with sandbox := s.sandbox ++ [code] })

/-- `ActionProcessor.generateCodeSnippet`: ask the oracle for code. -/
def generateCodeSnippet (env : Env) (lang : String) (s : St) :
    ActionOutcome × St :=
  match env.genCode with
  | none => (plainFail "Error generando código.", s)
  | some code =>
      (⟨true, "Código " ++ lang ++ " generado exitosamente.",
        some (.snippet code lang), false, none, none⟩, s)

/-- `ActionProcessor.executeAction`: a switch on the discriminant,
dispatching to one handler per variant.  The defensive `default`
branch is unreachable, the match being total over the validated union. -/
def executeAction (env : Env) (action : ChatActionType)
    (userId : Option String) (s : St) : ActionOutcome × St :=
  match action with
  | .create_project name ptype descr _ => createProject env name ptype descr s
  | .add_file pid name content path ftype => addFile env pid name content path ftype s
  | .update_file fid content path name => updateFileAct env fid content path name s
  | .delete_file fid => deleteFileAct fid s
  | .create_web_page pid pageName _ _ _ => createWebPage env pid pageName s
  | .modify_apk pid act params => modifyApk pid act params s
  | .run_python code _ => runPython env code s
  | .generate_code_snippet lang _ _ =>
      let _ := userId
      generateCodeSnippet env lang s

/-- The "unknown token" outcome of `confirmAction`. -/
def notFoundOutcome : ActionOutcome :=
  plainFail "Acción no encontrada o ya procesada."

/-- The "denied" outcome of `confirmAction`. -/
def cancelledOutcome : ActionOutcome :=
  plainFail "Acción cancelada por el usuario."

/-- `ActionProcessor.confirmAction`: look the token up; if absent,
report it; otherwise delete the entry first, then either execute the
stored action (confirmed) or report cancellation (denied). -/
def confirmAction (env : Env) (actionId : String) (confirmed : Bool)
    (s : St) : ActionOutcome × St :=
  match alookup actionId s.pending with
  | none => (notFoundOutcome, s)
  | some pend =>
    let s1 := { s with pending := aerase actionId s.pending }
    if confirmed then executeAction env pend.action pend.userId s1
    else (cancelledOutcome, s1)

/-! ## Supporting definitions for the statements below -/

/-- The `projectId` field carried by a validated action, when the
variant has one. -/
def actionProjectId : ChatActionType → Option String
  | .add_file pid _ _ _ _ => some pid
  | .create_web_page pid _ _ _ _ => some pid
  | .modify_apk pid _ _ => some pid
  | _ => none

/-- Is this validated action a `modify_apk`? -/
def isApkAction : ChatActionType → Bool
  | .modify_apk _ _ _ => true
  | _ => false

/-- Freshness invariant tying the Confirmation Gate's keys to the id
counter: every pending token was minted by an earlier draw of the
generator.  It holds of every state the pipeline actually reaches
(tokens only enter the map through `freshId`). -/
def TokensBelow (s : St) : Prop :=
  ∀ kv ∈ s.pending, ∃ m, m < s.nextId ∧ kv.1 = mkId m

/-- Run a finite sequence of `confirmAction` calls, threading state. -/
def runConfirms (env : Env) (calls : List (String × Bool)) (s : St) : St :=
  calls.foldl (fun st c => (confirmAction env c.1 c.2 st).2) s

/-- The file record `createProject`'s loop persists for one generated
file, given the id drawn for it and the owning project. -/
def genRecord (id pid : String) (g : GenFile) : StoredFile :=
  ⟨id, pid, g.path, g.name, g.content, g.type, false⟩

/-- An empty pipeline state. -/
def emptySt : St := ⟨[], [], [], 0, [], []⟩

/-- An environment where every external call succeeds vacuously. -/
def env0 : Env := ⟨none, true, fun _ => true, true, ⟨true, "", none⟩, none⟩

/-- An empty parse context. -/
def ctx0 : Ctx := ⟨none, none, none⟩

/-- A parse context whose current project is `proj-42`. -/
def ctx42 : Ctx := ⟨some "proj-42", none, none⟩

/-- A well-formed `delete_file` candidate. -/
def goodDeleteCand : Json :=
  .obj [("type", .str "delete_file"), ("fileId", .str "f1")]

/-- An `add_file` candidate missing its required `name`/`content`/
`path`/`fileType` fields: it fails schema validation. -/
def badAddCand : Json :=
  .obj [("type", .str "add_file"), ("projectId", .str "p1")]

/-- A `create_web_page` candidate carrying the `"current"` placeholder. -/
def webPageCand : Json :=
  .obj [("type", .str "create_web_page"), ("projectId", .str "current"),
        ("pageName", .str "contacto"), ("pageType", .str "contact")]

/-- A state holding one pending `delete_file` confirmation. -/
def pendingDeleteSt : St :=
  ⟨[], [], [(mkId 0, ⟨.delete_file "f9", none⟩)], 1, [], []⟩

/-- A state holding one pending `modify_apk` confirmation. -/
def pendingApkSt : St :=
  ⟨[], [], [(mkId 0, ⟨.modify_apk "p1" "change_icon" [], none⟩)], 1, [], []⟩

/-- A state holding one stored file record. -/
def oneFileRec : StoredFile := ⟨"fid1", "p1", "/a", "a.html", "old", "html", false⟩

/-- A state holding exactly `oneFileRec`. -/
def oneFileSt : St := ⟨[], [("fid1", oneFileRec)], [], 0, [], []⟩

/-- Generated skeleton files used in the `create_project` witnesses. -/
def genA : GenFile := ⟨"a.html", "/a", "ca", "html"⟩

/-- Second generated skeleton file; its mirror step is made to fail. -/
def genB : GenFile := ⟨"b.html", "/b", "cb", "html"⟩

/-- An environment whose skeleton-generation oracle call throws. -/
def envGenFail : Env := ⟨none, true, fun _ => true, true, ⟨true, "", none⟩, none⟩

/-- An environment where skeleton generation yields two files and the
mirror step for the second file throws. -/
def envMirrorFail : Env :=
  ⟨some [genA, genB], true, fun p => p != "/b", true, ⟨true, "", none⟩, none⟩

/-! ## Basic lemmas about the id generator and association lists -/

theorem mkId_injective : Function.Injective mkId := by
  intro a b h
  have h2 : (mkId a).data.length = (mkId b).data.length := by rw [h]
  simpa [mkId] using h2

theorem alookup_ainsert_self {α : Type} (k : String) (v : α)
    (l : List (String × α)) : alookup k (ainsert k v l) = some v := by
  simp [alookup, ainsert]

theorem alookup_ainsert_ne {α : Type} {k k' : String} (v : α)
    (l : List (String × α)) (h : k ≠ k') :
    alookup k' (ainsert k v l) = alookup k' l := by
  simp [alookup, ainsert, h]

theorem alookup_aerase_self {α : Type} (k : String) (l : List (String × α)) :
    alookup k (aerase k l) = none := by
  induction l with
  | nil => rfl
  | cons p rest ih =>
    by_cases hk : p.1 = k
    · simpa [aerase, hk] using ih
    · simpa [aerase, alookup, hk] using ih

theorem alookup_eq_some_mem {α : Type} {k : String} {v : α}
    {l : List (String × α)} (h : alookup k l = some v) : (k, v) ∈ l := by
  induction l with
  | nil => simp [alookup] at h
  | cons p rest ih =>
    by_cases hk : p.1 = k
    · simp [alookup, hk] at h
      subst hk
      subst h
      cases p
      exact List.mem_cons_self _ _
    · simp [alookup, hk] at h
      exact List.mem_cons_of_mem _ (ih h)

/-! ## Lemmas about the Intent Parser -/

theorem processCandidates_cons_nonnull (ctx : Ctx) (c : Json) (cs : List Json)
    (h : c.isNull = false) :
    processCandidates ctx (c :: cs) =
      match processCandidates ctx cs with
      | none => none
      | some rest =>
          some ((chatActionParse (substituteCurrent ctx c)).toList ++ rest) := by
  cases c <;> first
    | rfl
    | (simp [Json.isNull] at h)

theorem processCandidates_eq_filterMap (ctx : Ctx) (xs : List Json)
    (h : xs.all (fun c => !c.isNull) = true) :
    processCandidates ctx xs =
      some (xs.filterMap fun c => chatActionParse (substituteCurrent ctx c)) := by
  induction xs with
  | nil => rfl
  | cons c cs ih =>
    rw [List.all_cons, Bool.and_eq_true] at h
    have hc : c.isNull = false := by
      cases hc0 : c.isNull
      · rfl
      · rw [hc0] at h
        simp at h
    rw [processCandidates_cons_nonnull ctx c cs hc, ih h.2, List.filterMap_cons]
    cases hfc : chatActionParse (substituteCurrent ctx c) <;> simp

theorem parse_result_shape (resp : OracleResponse) (ctx : Ctx) :
    (parseUserRequest resp ctx).needsMoreInfo = false ∨
    (parseUserRequest resp ctx).actions = [] := by
  cases resp with
  | failure => right; rfl
  | notJson => right; rfl
  | json v =>
    cases v with
    | null => right; rfl
    | bool b =>
      cases hpc : processCandidates ctx [Json.bool b]
      · right; simp [parseUserRequest, hpc, truthy, getField]
      · left; simp [parseUserRequest, hpc, truthy, getField]
    | num n =>
      cases hpc : processCandidates ctx [Json.num n]
      · right; simp [parseUserRequest, hpc, truthy, getField]
      · left; simp [parseUserRequest, hpc, truthy, getField]
    | str t =>
      cases hpc : processCandidates ctx [Json.str t]
      · right; simp [parseUserRequest, hpc, truthy, getField]
      · left; simp [parseUserRequest, hpc, truthy, getField]
    | arr xs =>
      cases hpc : processCandidates ctx xs
      · right; simp [parseUserRequest, hpc, truthy, getField]
      · left; simp [parseUserRequest, hpc, truthy, getField]
    | obj fields =>
      by_cases ht : truthy (getField (Json.obj fields) "needsMoreInfo") = true
      · right; simp [parseUserRequest, ht]
      · cases hpc : processCandidates ctx [Json.obj fields]
        · right; simp [parseUserRequest, ht, hpc]
        · left; simp [parseUserRequest, ht, hpc]

theorem alookup_map_replace (k : String) (v : Json)
    (fs : List (String × Json)) (h : fs.any (fun p => p.1 == k) = true) :
    alookup k (fs.map (fun p => if p.1 = k then (k, v) else p)) = some v := by
  induction fs with
  | nil => simp at h
  | cons p rest ih =>
    by_cases hk : p.1 = k
    · subst hk
      simp only [List.map_cons, if_pos rfl]
      simp [alookup]
    · have hpk : (p.1 == k) = false := by simpa using hk
      rw [List.any_cons, hpk, Bool.false_or] at h
      simp only [List.map_cons, if_neg hk]
      rw [show alookup k (p :: rest.map fun q => if q.1 = k then (k, v) else q)
            = alookup k (rest.map fun q => if q.1 = k then (k, v) else q) from by
          simp [alookup, hk]]
      exact ih h

theorem alookup_append_absent (k : String) (v : Json)
    (fs : List (String × Json)) (h : fs.any (fun p => p.1 == k) = false) :
    alookup k (fs ++ [(k, v)]) = some v := by
  induction fs with
  | nil => simp [alookup]
  | cons p rest ih =>
    rw [List.any_cons] at h
    have hk : (p.1 == k) = false := by
      cases hpk : p.1 == k
      · rfl
      · rw [hpk] at h
        simp at h
    have hk2 : p.1 ≠ k := by simpa using hk
    simp only [List.cons_append]
    rw [show alookup k (p :: (rest ++ [(k, v)])) = alookup k (rest ++ [(k, v)]) from by
      simp [alookup, hk2]]
    exact ih (by
      cases hr : rest.any (fun p => p.1 == k)
      · rfl
      · rw [hk, hr] at h
        simp at h)

theorem getField_setField_obj (fs : List (String × Json)) (k : String) (v : Json) :
    getField (setField (.obj fs) k v) k = some v := by
  unfold setField
  cases ha : fs.any (fun p => p.1 == k)
  · simp only [ha, Bool.false_eq_true, if_false, getField]
    exact alookup_append_absent k v fs ha
  · simp only [ha, if_true, getField]
    exact alookup_map_replace k v fs ha

theorem chatActionParse_projectId {j : Json} {a : ChatActionType} {pid : String}
    (hj : getField j "projectId" = some (.str pid))
    (ha : chatActionParse j = some a) :
    actionProjectId a = none ∨ actionProjectId a = some pid := by
  cases j <;> simp [getField] at hj
  rename_i fields
  have hq : reqString fields "projectId" = some pid := by
    simp [reqString, hj, asString]
  simp only [chatActionParse] at ha
  split at ha
  · split_ifs at ha <;>
      (split at ha <;> (cases a <;> simp_all [actionProjectId]))
  · simp at ha

/-! ## Claim theorems: the Intent Parser -/

/-- C4: `parseUserRequest` is total over oracle behaviour: an oracle
response that is not decodable JSON, and a failure of the oracle call
itself, each yield `{actions: [], needsMoreInfo: true}` with a
non-empty `clarificationMessage`, and no exception reaches the caller
(both `catch` branches return a well-formed `ParseResult`; totality of
the embedding is totality of the function). -/
theorem parser_failure_fallback (ctx : Ctx) :
    parseUserRequest .failure ctx = ⟨[], true, some (.str genericErrorMsg)⟩ ∧
    parseUserRequest .notJson ctx = ⟨[], true, some (.str couldNotParseMsg)⟩ ∧
    genericErrorMsg ≠ "" ∧ couldNotParseMsg ≠ "" :=
  ⟨rfl, rfl, by decide, by decide⟩

/-- C5 (counterexample): validation is not per-candidate on every
decoded list.  The list `[goodDeleteCand, Json.null]` contains one
well-formed candidate and one failing candidate, yet the well-formed
sibling does not survive: reading `projectId` of the `null` candidate
throws, the inner catch fires, and the whole batch degrades to the
could-not-understand fallback with no actions. -/
theorem batch_isolation_counterexample :
    chatActionParse goodDeleteCand = some (.delete_file "f1") ∧
    parseUserRequest (.json (.arr [goodDeleteCand, .null])) ctx0 =
      ⟨[], true, some (.str couldNotParseMsg)⟩ :=
  ⟨rfl, rfl⟩

theorem parse_arr_nonnull (ctx : Ctx) (xs : List Json)
    (h : xs.all (fun c => !c.isNull) = true) :
    parseUserRequest (.json (.arr xs)) ctx =
      ⟨xs.filterMap (fun c => chatActionParse (substituteCurrent ctx c)),
       false, none⟩ := by
  have hpc := processCandidates_eq_filterMap ctx xs h
  simp [parseUserRequest, truthy, getField, hpc]

/-- C5 (amended): for candidate lists containing no `null` element,
validation is per-candidate: each failing candidate is dropped
individually and every well-formed sibling survives (the result is the
`filterMap` of validation over the substituted candidates). -/
theorem batch_isolation_nonnull (ctx : Ctx) (xs : List Json)
    (h : xs.all (fun c => !c.isNull) = true) :
    parseUserRequest (.json (.arr xs)) ctx =
      ⟨xs.filterMap (fun c => chatActionParse (substituteCurrent ctx c)),
       false, none⟩ :=
  parse_arr_nonnull ctx xs h

/-- Witness for `batch_isolation_nonnull`: one well-formed candidate
next to one missing required fields yields exactly the well-formed
validated action. -/
theorem batch_isolation_nonnull_witness :
    ([goodDeleteCand, badAddCand].all (fun c => !c.isNull) = true) ∧
    parseUserRequest (.json (.arr [goodDeleteCand, badAddCand])) ctx0 =
      ⟨[.delete_file "f1"], false, none⟩ :=
  ⟨rfl, (batch_isolation_nonnull ctx0 [goodDeleteCand, badAddCand] rfl).trans rfl⟩

/-- C6: a candidate whose `projectId` is the literal `"current"`,
parsed in a context carrying a (non-empty) `projectId`, has the
context's id substituted in before validation; a validated action
produced from it therefore carries the context's `projectId` whenever
its variant has that field. -/
theorem placeholder_substitution (ctx : Ctx) (c : Json) (pid : String)
    (h1 : getField c "projectId" = some (.str "current"))
    (h2 : ctx.projectId = some pid) (h3 : pid ≠ "") :
    parseUserRequest (.json (.arr [c])) ctx =
      ⟨(chatActionParse (setField c "projectId" (.str pid))).toList,
       false, none⟩ ∧
    (∀ a, chatActionParse (setField c "projectId" (.str pid)) = some a →
       actionProjectId a = none ∨ actionProjectId a = some pid) := by
  have hsub : substituteCurrent ctx c = setField c "projectId" (.str pid) := by
    unfold substituteCurrent
    rw [h1, h2]
    simp [h3]
  have hobj : c.isNull = false := by
    cases c <;> first
      | rfl
      | simp [getField] at h1
  constructor
  · have h := parse_arr_nonnull ctx [c] (by simp [hobj])
    rw [h]
    have hl : List.filterMap (fun c => chatActionParse (substituteCurrent ctx c)) [c]
        = (chatActionParse (setField c "projectId" (Json.str pid))).toList := by
      rw [List.filterMap_cons, List.filterMap_nil, hsub]
      cases chatActionParse (setField c "projectId" (Json.str pid)) <;> rfl
    rw [hl]
  · intro a ha
    have hget : getField (setField c "projectId" (.str pid)) "projectId" =
        some (.str pid) := by
      cases c <;> simp [getField] at h1
      exact getField_setField_obj _ "projectId" (.str pid)
    exact chatActionParse_projectId hget ha

/-- Witness for `placeholder_substitution`: a `create_web_page`
candidate with `projectId: "current"` and a context carrying
`proj-42` validates to an action carrying `proj-42`. -/
theorem placeholder_substitution_witness :
    getField webPageCand "projectId" = some (.str "current") ∧
    ctx42.projectId = some "proj-42" ∧
    parseUserRequest (.json (.arr [webPageCand])) ctx42 =
      ⟨[.create_web_page "proj-42" "contacto" "contact" none none],
       false, none⟩ := by
  have h := placeholder_substitution ctx42 webPageCand "proj-42" rfl rfl
    (by decide)
  exact ⟨rfl, rfl, h.1.trans rfl⟩

/-- C7: invariant of every `ParseResult` the parser returns:
`needsMoreInfo = true` implies the action list is empty. -/
theorem needs_more_info_implies_no_actions (resp : OracleResponse) (ctx : Ctx)
    (h : (parseUserRequest resp ctx).needsMoreInfo = true) :
    (parseUserRequest resp ctx).actions = [] := by
  rcases parse_result_shape resp ctx with hf | ha
  · rw [hf] at h
    exact absurd h (by simp)
  · exact ha

/-- Witness for `needs_more_info_implies_no_actions` at a concrete
undecodable oracle response. -/
theorem needs_more_info_witness :
    (parseUserRequest .notJson ctx0).needsMoreInfo = true ∧
    (parseUserRequest .notJson ctx0).actions = [] :=
  ⟨rfl, needs_more_info_implies_no_actions .notJson ctx0 rfl⟩

/-! ## Lemmas about the Action Executor and Confirmation Gate -/

theorem createFilesLoop_frame (env : Env) (pid : String) :
    ∀ (gfs : List GenFile) (s : St),
      (createFilesLoop env pid gfs s).2.projects = s.projects ∧
      (createFilesLoop env pid gfs s).2.pending = s.pending ∧
      (createFilesLoop env pid gfs s).2.sandbox = s.sandbox := by
  intro gfs
  induction gfs with
  | nil => intro s; exact ⟨rfl, rfl, rfl⟩
  | cons gf rest ih =>
    intro s
    unfold createFilesLoop
    cases hok : env.fsCreateFileOk gf.path
    · simp only [hok, Bool.false_eq_true, if_false]
      exact ⟨rfl, rfl, rfl⟩
    · simp only [hok, if_true]
      rcases hrec : createFilesLoop env pid rest
          { (storageCreateFile pid gf.name gf.path gf.content gf.type false s).2 with
            mirror := (storageCreateFile pid gf.name gf.path gf.content gf.type false s).2.mirror
              ++ [MirrorOp.createFile pid gf.path gf.content] } with ⟨o, s3⟩
      have h3 := ih { (storageCreateFile pid gf.name gf.path gf.content gf.type false s).2 with
            mirror := (storageCreateFile pid gf.name gf.path gf.content gf.type false s).2.mirror
              ++ [MirrorOp.createFile pid gf.path gf.content] }
      rw [hrec] at h3
      cases o <;> simpa [storageCreateFile, freshId, ainsert] using h3

theorem createFilesLoop_lookup_preserved (env : Env) (pid : String) :
    ∀ (gfs : List GenFile) (s : St) (k : String),
      (∀ m, k = mkId m → m < s.nextId) →
      alookup k (createFilesLoop env pid gfs s).2.files = alookup k s.files := by
  intro gfs
  induction gfs with
  | nil => intro s k _; rfl
  | cons gf rest ih =>
    intro s k hk
    have hne : mkId s.nextId ≠ k := by
      intro he
      exact absurd (hk s.nextId he.symm) (lt_irrefl _)
    unfold createFilesLoop
    cases hok : env.fsCreateFileOk gf.path
    · simp only [hok, Bool.false_eq_true, if_false]
      simpa [storageCreateFile, freshId] using alookup_ainsert_ne _ s.files hne
    · simp only [hok, if_true]
      set s2 : St := { (storageCreateFile pid gf.name gf.path gf.content gf.type false s).2 with
        mirror := (storageCreateFile pid gf.name gf.path gf.content gf.type false s).2.mirror
          ++ [MirrorOp.createFile pid gf.path gf.content] } with hs2
      have hk2 : ∀ m, k = mkId m → m < s2.nextId := by
        intro m hm
        have := hk m hm
        simp only [hs2, storageCreateFile, freshId]
        omega
      have hside := ih s2 k hk2
      have hfiles : alookup k s2.files = alookup k s.files := by
        simpa [hs2, storageCreateFile, freshId] using alookup_ainsert_ne _ s.files hne
      rcases hrec : createFilesLoop env pid rest s2 with ⟨o, s3⟩
      have hside2 : alookup k s3.files = alookup k s.files := by
        rw [hrec] at hside
        dsimp only at hside
        exact hside.trans hfiles
      cases o <;> exact hside2

theorem createPageFilesLoop_pending (pid pageName : String) :
    ∀ (gfs : List GenFile) (s : St),
      (createPageFilesLoop pid pageName gfs s).2.pending = s.pending := by
  intro gfs
  induction gfs with
  | nil => intro s; rfl
  | cons gf rest ih =>
    intro s
    unfold createPageFilesLoop
    exact ih _


theorem createProject_pending (env : Env) (name ptype : String)
    (descr : Option String) (s : St) :
    (createProject env name ptype descr s).2.pending = s.pending := by
  unfold createProject
  split
  · rfl
  · rename_i gfs hps
    rcases hsc : storageCreateProject name ptype (projDescription ptype descr) [] s
      with ⟨project, s1⟩
    have hsp : s1.pending = s.pending := by
      have h2 := congrArg (fun q => q.2.pending) hsc
      simpa [storageCreateProject, freshId, ainsert] using h2.symm
    dsimp only
    split_ifs with hfs
    · rcases hlp : createFilesLoop env project.id gfs
        { s1 with mirror := s1.mirror ++ [MirrorOp.createProject project.id project.name] }
        with ⟨o, s3⟩
      have hfr := (createFilesLoop_frame env project.id gfs
        { s1 with mirror := s1.mirror ++ [MirrorOp.createProject project.id project.name] }).2.1
      rw [hlp] at hfr
      dsimp only at hfr
      cases o
      · exact hfr.trans hsp
      · exact hfr.trans hsp
    · exact hsp

theorem addFile_pending (env : Env) (pid name content path ftype : String)
    (s : St) :
    (addFile env pid name content path ftype s).2.pending = s.pending := by
  unfold addFile
  split_ifs <;> simp [storageCreateFile, freshId, ainsert]

theorem updateFileAct_pending (env : Env) (fid : String)
    (content path name : Option String) (s : St) :
    (updateFileAct env fid content path name s).2.pending = s.pending := by
  unfold updateFileAct
  rcases hsu : storageUpdateFile fid ⟨content, path, name, some true⟩ s with ⟨of, s1⟩
  have hsp : s1.pending = s.pending := by
    have h2 := congrArg (fun q => q.2.pending) hsu
    have h3 : (storageUpdateFile fid ⟨content, path, name, some true⟩ s).2.pending
        = s.pending := by
      unfold storageUpdateFile
      split <;> rfl
    exact h2.symm.trans h3
  cases of
  · exact hsp
  · rename_i f
    cases content
    · exact hsp
    · rename_i c
      split_ifs <;> exact hsp

theorem deleteFileAct_pending (fid : String) (s : St) :
    (deleteFileAct fid s).2.pending = s.pending := by
  unfold deleteFileAct
  split <;> rfl

theorem createWebPage_pending (env : Env) (pid pageName : String) (s : St) :
    (createWebPage env pid pageName s).2.pending = s.pending := by
  unfold createWebPage
  split
  · rfl
  · rename_i gfs hps
    exact createPageFilesLoop_pending pid pageName gfs s

theorem generateCodeSnippet_pending (env : Env) (lang : String) (s : St) :
    (generateCodeSnippet env lang s).2.pending = s.pending := by
  unfold generateCodeSnippet
  split <;> rfl

theorem modifyApk_state (pid act : String) (params : List (String × Json))
    (s : St) :
    (modifyApk pid act params s).2 =
      { s with nextId := s.nextId + 1,
               pending := ainsert (mkId s.nextId)
                 ⟨.modify_apk pid act params, none⟩ s.pending } := rfl

theorem executeAction_pending_lookup (env : Env) (a : ChatActionType)
    (u : Option String) (s : St) (k : String) (e : PendingEntry)
    (h : alookup k (executeAction env a u s).2.pending = some e) :
    alookup k s.pending = some e ∨ k = mkId s.nextId := by
  cases a with
  | create_project name ptype descr tmpl =>
    left
    simp only [executeAction] at h
    rw [createProject_pending] at h
    exact h
  | add_file pid name content path ftype =>
    left
    simp only [executeAction] at h
    rw [addFile_pending] at h
    exact h
  | update_file fid content path name =>
    left
    simp only [executeAction] at h
    rw [updateFileAct_pending] at h
    exact h
  | delete_file fid =>
    left
    simp only [executeAction] at h
    rw [deleteFileAct_pending] at h
    exact h
  | create_web_page pid pageName pageType style features =>
    left
    simp only [executeAction] at h
    rw [createWebPage_pending] at h
    exact h
  | modify_apk pid act params =>
    simp only [executeAction] at h
    by_cases hk : mkId s.nextId = k
    · right
      exact hk.symm
    · left
      have hrw : (modifyApk pid act params s).2.pending
          = ainsert (mkId s.nextId)
              (⟨.modify_apk pid act params, none⟩ : PendingEntry) s.pending := rfl
      rw [hrw, alookup_ainsert_ne _ _ hk] at h
      exact h
  | run_python code descr =>
    simp only [executeAction] at h
    exact Or.inl h
  | generate_code_snippet lang descr ctxt =>
    left
    simp only [executeAction] at h
    rw [generateCodeSnippet_pending] at h
    exact h

/-! ## Claim theorems: the Action Executor and the Confirmation Gate -/

/-- C1: executing any validated `modify_apk` action, whatever its
`action`/`parameters`, performs no immediate effect on the Project
Store (projects/files), the filesystem mirror, or the sandbox; it
returns `success:false`, `requiresConfirmation:true`, a confirmation
message, and a fresh, previously-unused `actionId`, and registers the
action with the Confirmation Gate under that token. -/
theorem modify_apk_always_defers (env : Env) (uid : Option String)
    (pid act : String) (params : List (String × Json)) (s : St)
    (hInv : TokensBelow s) :
    (executeAction env (.modify_apk pid act params) uid s).1.success = false ∧
    (executeAction env (.modify_apk pid act params) uid s).1.requiresConfirmation = true ∧
    (executeAction env (.modify_apk pid act params) uid s).1.confirmationMessage
      = some (apkConfirmMsg act) ∧
    (executeAction env (.modify_apk pid act params) uid s).1.actionId
      = some (mkId s.nextId) ∧
    alookup (mkId s.nextId) s.pending = none ∧
    alookup (mkId s.nextId)
        (executeAction env (.modify_apk pid act params) uid s).2.pending
      = some ⟨.modify_apk pid act params, none⟩ ∧
    (executeAction env (.modify_apk pid act params) uid s).2.projects = s.projects ∧
    (executeAction env (.modify_apk pid act params) uid s).2.files = s.files ∧
    (executeAction env (.modify_apk pid act params) uid s).2.mirror = s.mirror ∧
    (executeAction env (.modify_apk pid act params) uid s).2.sandbox = s.sandbox := by
  refine ⟨rfl, rfl, rfl, rfl, ?_, ?_, rfl, rfl, rfl, rfl⟩
  · cases hl : alookup (mkId s.nextId) s.pending with
    | none => rfl
    | some e2 =>
      exfalso
      obtain ⟨m, hm, hk⟩ := hInv _ (alookup_eq_some_mem hl)
      have hmm : s.nextId = m := mkId_injective hk
      omega
  · exact alookup_ainsert_self _ _ _

/-- Witness for `modify_apk_always_defers` on the empty state. -/
theorem modify_apk_always_defers_witness :
    TokensBelow emptySt ∧
    (executeAction env0 (.modify_apk "p1" "change_icon" []) none emptySt).1.success
      = false ∧
    (executeAction env0 (.modify_apk "p1" "change_icon" []) none emptySt).1.requiresConfirmation
      = true ∧
    alookup (mkId 0)
        (executeAction env0 (.modify_apk "p1" "change_icon" []) none emptySt).2.pending
      = some ⟨.modify_apk "p1" "change_icon" [], none⟩ := by
  have hInv : TokensBelow emptySt := by
    intro kv hkv
    simp [emptySt] at hkv
  have h := modify_apk_always_defers env0 none "p1" "change_icon" [] emptySt hInv
  exact ⟨hInv, h.1, h.2.1, h.2.2.2.2.2.1⟩

/-- C3: denying a pending confirmation removes the entry and returns
the cancelled outcome, with no Project Store, mirror, or sandbox
effect (the stored action never executes); confirming the same token
afterwards reports it not found. -/
theorem deny_discards (env : Env) (t : String) (e : PendingEntry) (s : St)
    (hpend : alookup t s.pending = some e) :
    confirmAction env t false s =
      (cancelledOutcome, { s with pending := aerase t s.pending }) ∧
    (confirmAction env t false s).2.projects = s.projects ∧
    (confirmAction env t false s).2.files = s.files ∧
    (confirmAction env t false s).2.mirror = s.mirror ∧
    (confirmAction env t false s).2.sandbox = s.sandbox ∧
    confirmAction env t true (confirmAction env t false s).2 =
      (notFoundOutcome, (confirmAction env t false s).2) := by
  have h1 : confirmAction env t false s =
      (cancelledOutcome, { s with pending := aerase t s.pending }) := by
    unfold confirmAction
    rw [hpend]
    rfl
  refine ⟨h1, ?_, ?_, ?_, ?_, ?_⟩
  · rw [h1]
  · rw [h1]
  · rw [h1]
  · rw [h1]
  · rw [h1]
    have hn : alookup t ({ s with pending := aerase t s.pending } : St).pending = none :=
      alookup_aerase_self t s.pending
    unfold confirmAction
    rw [hn]

/-- Witness for `deny_discards` on a state holding one pending entry. -/
theorem deny_discards_witness :
    alookup (mkId 0) pendingDeleteSt.pending =
      some ⟨.delete_file "f9", none⟩ ∧
    confirmAction env0 (mkId 0) false pendingDeleteSt =
      (cancelledOutcome,
       { pendingDeleteSt with pending := aerase (mkId 0) pendingDeleteSt.pending }) ∧
    confirmAction env0 (mkId 0) true
        (confirmAction env0 (mkId 0) false pendingDeleteSt).2 =
      (notFoundOutcome, (confirmAction env0 (mkId 0) false pendingDeleteSt).2) := by
  have h := deny_discards env0 (mkId 0) ⟨.delete_file "f9", none⟩ pendingDeleteSt rfl
  exact ⟨rfl, h.1, h.2.2.2.2.2⟩

/-- C2: confirming a pending token removes the entry before
re-invoking the Action Executor on the stored action and returns that
re-execution's outcome; a second `confirmAction` on the same token, or
any call on a token that is not pending, returns the
not-found-or-already-processed outcome. -/
theorem confirm_removes_before_execute (env : Env) (t : String)
    (e : PendingEntry) (s : St) (hInv : TokensBelow s)
    (hpend : alookup t s.pending = some e) :
    confirmAction env t true s =
      executeAction env e.action e.userId
        { s with pending := aerase t s.pending } ∧
    (∀ c : Bool, confirmAction env t c (confirmAction env t true s).2 =
       (notFoundOutcome, (confirmAction env t true s).2)) ∧
    (∀ (t' : String) (c : Bool) (s' : St), alookup t' s'.pending = none →
       confirmAction env t' c s' = (notFoundOutcome, s')) := by
  have h1 : confirmAction env t true s =
      executeAction env e.action e.userId
        { s with pending := aerase t s.pending } := by
    unfold confirmAction
    rw [hpend]
    rfl
  have hnone : ∀ (t' : String) (c : Bool) (s' : St),
      alookup t' s'.pending = none →
      confirmAction env t' c s' = (notFoundOutcome, s') := by
    intro t' c s' hn
    unfold confirmAction
    rw [hn]
  refine ⟨h1, ?_, hnone⟩
  intro c
  apply hnone
  rw [h1]
  cases hl : alookup t (executeAction env e.action e.userId
      { s with pending := aerase t s.pending }).2.pending with
  | none => rfl
  | some e2 =>
    exfalso
    rcases executeAction_pending_lookup env e.action e.userId _ t e2 hl with h2 | h2
    · rw [show ({ s with pending := aerase t s.pending } : St).pending
            = aerase t s.pending from rfl, alookup_aerase_self] at h2
      exact Option.noConfusion h2
    · obtain ⟨m, hm, hk⟩ := hInv _ (alookup_eq_some_mem hpend)
      have hmm : m = s.nextId := mkId_injective (hk.symm.trans h2)
      omega

/-- Witness for `confirm_removes_before_execute` on a state holding
one pending `delete_file` entry. -/
theorem confirm_removes_before_execute_witness :
    TokensBelow pendingDeleteSt ∧
    confirmAction env0 (mkId 0) true pendingDeleteSt =
      executeAction env0 (.delete_file "f9") none
        { pendingDeleteSt with pending := aerase (mkId 0) pendingDeleteSt.pending } ∧
    confirmAction env0 (mkId 0) true
        (confirmAction env0 (mkId 0) true pendingDeleteSt).2 =
      (notFoundOutcome, (confirmAction env0 (mkId 0) true pendingDeleteSt).2) := by
  have hInv : TokensBelow pendingDeleteSt := by
    intro kv hkv
    rw [show pendingDeleteSt.pending
          = [(mkId 0, ⟨.delete_file "f9", none⟩)] from rfl,
        List.mem_singleton] at hkv
    subst hkv
    exact ⟨0, Nat.one_pos, rfl⟩
  have h := confirm_removes_before_execute env0 (mkId 0)
    ⟨.delete_file "f9", none⟩ pendingDeleteSt hInv rfl
  exact ⟨hInv, h.1, h.2.1 true⟩

/-- C8: `update_file` applies exactly the fields present in the action
(`content`/`path`/`name`) to the stored record and unconditionally sets
the modified flag — absent fields are left unchanged — touching neither
projects nor the pending map; if the record does not exist, the outcome
is the file-not-found failure and the state is entirely unchanged. -/
theorem update_file_partial_update (env : Env) (uid : Option String)
    (fid : String) (co po no : Option String) (s : St) :
    (∀ f, alookup fid s.files = some f →
       alookup fid (executeAction env (.update_file fid co po no) uid s).2.files =
         some { f with content := co.getD f.content, path := po.getD f.path,
                       name := no.getD f.name, isModified := true } ∧
       (executeAction env (.update_file fid co po no) uid s).2.projects
         = s.projects ∧
       (executeAction env (.update_file fid co po no) uid s).2.pending
         = s.pending) ∧
    (alookup fid s.files = none →
       executeAction env (.update_file fid co po no) uid s =
         (plainFail "Archivo no encontrado.", s)) := by
  constructor
  · intro f hf
    have hsu : storageUpdateFile fid ⟨co, po, no, some true⟩ s =
        (some (applyPatch f ⟨co, po, no, some true⟩),
         { s with files := ainsert fid (applyPatch f ⟨co, po, no, some true⟩) s.files }) := by
      unfold storageUpdateFile
      rw [hf]
    refine ⟨?_, ?_, ?_⟩
    · show alookup fid (updateFileAct env fid co po no s).2.files = _
      unfold updateFileAct
      rw [hsu]
      cases co with
      | none =>
        dsimp only
        rw [alookup_ainsert_self]
        rfl
      | some c =>
        split_ifs <;>
          (dsimp only
           rw [alookup_ainsert_self]
           rfl)
    · show (updateFileAct env fid co po no s).2.projects = s.projects
      unfold updateFileAct
      rw [hsu]
      cases co with
      | none => rfl
      | some c => split_ifs <;> rfl
    · exact updateFileAct_pending env fid co po no s
  · intro hf
    show updateFileAct env fid co po no s = (plainFail "Archivo no encontrado.", s)
    unfold updateFileAct
    rw [show storageUpdateFile fid ⟨co, po, no, some true⟩ s = (none, s) from by
      unfold storageUpdateFile
      rw [hf]]

/-- Witness for `update_file_partial_update`: a content-only update of
an existing record changes `content` and the modified flag only, and an
update of a missing id fails without any state change. -/
theorem update_file_partial_update_witness :
    alookup "fid1" oneFileSt.files = some oneFileRec ∧
    alookup "fid1"
        (executeAction env0 (.update_file "fid1" (some "new") none none)
          none oneFileSt).2.files
      = some { oneFileRec with content := "new", isModified := true } ∧
    executeAction env0 (.update_file "missing" none none none) none emptySt =
      (plainFail "Archivo no encontrado.", emptySt) := by
  have h := update_file_partial_update env0 none "fid1" (some "new") none none oneFileSt
  have h2 := update_file_partial_update env0 none "missing" none none none emptySt
  refine ⟨rfl, ?_, h2.2 rfl⟩
  have h3 := (h.1 oneFileRec rfl).1
  exact h3.trans rfl

theorem confirm_step_apk (env : Env) (t : String) (c : Bool) (s : St)
    (h : ∀ kv ∈ s.pending, isApkAction kv.2.action = true) :
    (confirmAction env t c s).2.projects = s.projects ∧
    (confirmAction env t c s).2.files = s.files ∧
    (confirmAction env t c s).2.mirror = s.mirror ∧
    (confirmAction env t c s).2.sandbox = s.sandbox ∧
    (∀ kv ∈ (confirmAction env t c s).2.pending,
       isApkAction kv.2.action = true) := by
  cases hl : alookup t s.pending with
  | none =>
    unfold confirmAction
    rw [hl]
    exact ⟨rfl, rfl, rfl, rfl, h⟩
  | some e =>
    have hApk := h _ (alookup_eq_some_mem hl)
    have herase : ∀ kv ∈ aerase t s.pending, isApkAction kv.2.action = true := by
      intro kv hkv
      exact h kv (List.mem_of_mem_filter hkv)
    unfold confirmAction
    rw [hl]
    cases c with
    | false => exact ⟨rfl, rfl, rfl, rfl, herase⟩
    | true =>
      cases e with
      | mk ea eu =>
        cases ea <;>
          first
            | (refine ⟨rfl, rfl, rfl, rfl, ?_⟩
               intro kv hkv
               cases hkv with
               | head => rfl
               | tail _ hmem => exact herase kv hmem)
            | exact Bool.noConfusion hApk

theorem runConfirms_apk_frame (env : Env) :
    ∀ (calls : List (String × Bool)) (s0 : St),
      (∀ kv ∈ s0.pending, isApkAction kv.2.action = true) →
      (runConfirms env calls s0).projects = s0.projects ∧
      (runConfirms env calls s0).files = s0.files ∧
      (runConfirms env calls s0).mirror = s0.mirror ∧
      (runConfirms env calls s0).sandbox = s0.sandbox ∧
      (∀ kv ∈ (runConfirms env calls s0).pending,
         isApkAction kv.2.action = true) := by
  intro calls
  induction calls with
  | nil =>
    intro s0 h
    exact ⟨rfl, rfl, rfl, rfl, h⟩
  | cons cb rest ih =>
    intro s0 h
    have hstep := confirm_step_apk env cb.1 cb.2 s0 h
    obtain ⟨h1, h2, h3, h4, h5⟩ := ih (confirmAction env cb.1 cb.2 s0).2
      hstep.2.2.2.2
    exact ⟨h1.trans hstep.1, h2.trans hstep.2.1, h3.trans hstep.2.2.1,
      h4.trans hstep.2.2.2.1, h5⟩

/-- C10 (implicit): confirming a pending `modify_apk` never performs
the APK modification.  Confirming such a token re-invokes the executor,
which again defers: the outcome is `success:false` with
`requiresConfirmation:true` and a new token distinct from the confirmed
one, the same action is re-registered under the new token, and the
stores/logs are untouched; consequently, from any state whose pending
entries are all `modify_apk`, no finite sequence of `confirmAction`
calls changes the Project Store, the mirror, or the sandbox, and all
pending entries remain `modify_apk`. -/
theorem modify_apk_confirm_never_executes (env : Env) (t pid act : String)
    (params : List (String × Json)) (u : Option String) (s : St)
    (hpend : alookup t s.pending = some ⟨.modify_apk pid act params, u⟩)
    (hInv : TokensBelow s) :
    ((confirmAction env t true s).1.success = false ∧
     (confirmAction env t true s).1.requiresConfirmation = true ∧
     (confirmAction env t true s).1.actionId = some (mkId s.nextId) ∧
     mkId s.nextId ≠ t ∧
     alookup (mkId s.nextId) (confirmAction env t true s).2.pending =
       some ⟨.modify_apk pid act params, none⟩ ∧
     (confirmAction env t true s).2.projects = s.projects ∧
     (confirmAction env t true s).2.files = s.files ∧
     (confirmAction env t true s).2.mirror = s.mirror ∧
     (confirmAction env t true s).2.sandbox = s.sandbox) ∧
    (∀ (calls : List (String × Bool)) (s0 : St),
       (∀ kv ∈ s0.pending, isApkAction kv.2.action = true) →
       (runConfirms env calls s0).projects = s0.projects ∧
       (runConfirms env calls s0).files = s0.files ∧
       (runConfirms env calls s0).mirror = s0.mirror ∧
       (runConfirms env calls s0).sandbox = s0.sandbox ∧
       (∀ kv ∈ (runConfirms env calls s0).pending,
          isApkAction kv.2.action = true)) := by
  have h1 : confirmAction env t true s =
      modifyApk pid act params { s with pending := aerase t s.pending } := by
    unfold confirmAction
    rw [hpend]
    rfl
  constructor
  · refine ⟨?_, ?_, ?_, ?_, ?_, ?_, ?_, ?_, ?_⟩
    · rw [h1]
      rfl
    · rw [h1]
      rfl
    · rw [h1]
      rfl
    · intro he
      obtain ⟨m, hm, hk⟩ := hInv _ (alookup_eq_some_mem hpend)
      have hmm : s.nextId = m := mkId_injective (he.trans hk)
      omega
    · rw [h1]
      exact alookup_ainsert_self _ _ _
    · rw [h1]
      rfl
    · rw [h1]
      rfl
    · rw [h1]
      rfl
    · rw [h1]
      rfl
  · exact runConfirms_apk_frame env

/-- Witness for `modify_apk_confirm_never_executes` on a state holding
one pending `modify_apk` entry, with a two-call confirmation sequence. -/
theorem modify_apk_confirm_never_executes_witness :
    alookup (mkId 0) pendingApkSt.pending =
      some ⟨.modify_apk "p1" "change_icon" [], none⟩ ∧
    TokensBelow pendingApkSt ∧
    (confirmAction env0 (mkId 0) true pendingApkSt).1.requiresConfirmation
      = true ∧
    (confirmAction env0 (mkId 0) true pendingApkSt).1.success = false ∧
    mkId pendingApkSt.nextId ≠ mkId 0 ∧
    (runConfirms env0 [(mkId 0, true), (mkId 1, true)] pendingApkSt).sandbox
      = pendingApkSt.sandbox := by
  have hInv : TokensBelow pendingApkSt := by
    intro kv hkv
    rw [show pendingApkSt.pending
          = [(mkId 0, ⟨.modify_apk "p1" "change_icon" [], none⟩)] from rfl,
        List.mem_singleton] at hkv
    subst hkv
    exact ⟨0, Nat.one_pos, rfl⟩
  have h := modify_apk_confirm_never_executes env0 (mkId 0) "p1" "change_icon"
    [] none pendingApkSt rfl hInv
  refine ⟨rfl, hInv, h.1.2.1, h.1.1, h.1.2.2.2.1, ?_⟩
  exact (h.2 [(mkId 0, true), (mkId 1, true)] pendingApkSt (by decide)).2.2.2.1

theorem createFilesLoop_cons_ok (env : Env) (pid : String) (g : GenFile)
    (gfs : List GenFile) (s : St) (hg : env.fsCreateFileOk g.path = true) :
    createFilesLoop env pid (g :: gfs) s =
      match createFilesLoop env pid gfs
          { s with
            files := ainsert (mkId s.nextId)
              (genRecord (mkId s.nextId) pid g) s.files,
            nextId := s.nextId + 1,
            mirror := s.mirror ++ [MirrorOp.createFile pid g.path g.content] } with
      | (some fs, s3) => (some (genRecord (mkId s.nextId) pid g :: fs), s3)
      | (none, s3) => (none, s3) := by
  simp only [createFilesLoop, hg, if_true]
  rfl

theorem createFilesLoop_fails (env : Env) (pid : String) (gf : GenFile)
    (hgf : env.fsCreateFileOk gf.path = false) :
    ∀ (pre rest : List GenFile) (s : St),
      (∀ g ∈ pre, env.fsCreateFileOk g.path = true) →
      (createFilesLoop env pid (pre ++ gf :: rest) s).1 = none ∧
      (∀ i (hi : i < pre.length),
         alookup (mkId (s.nextId + i))
             (createFilesLoop env pid (pre ++ gf :: rest) s).2.files
           = some (genRecord (mkId (s.nextId + i)) pid (pre.get ⟨i, hi⟩))) := by
  intro pre
  induction pre with
  | nil =>
    intro rest s hpre
    constructor
    · simp [createFilesLoop, hgf]
    · intro i hi
      exact absurd hi (Nat.not_lt_zero i)
  | cons g pre' ih =>
    intro rest s hpre
    have hg : env.fsCreateFileOk g.path = true := hpre g (List.mem_cons_self g pre')
    have hpre' : ∀ x ∈ pre', env.fsCreateFileOk x.path = true := by
      intro x hx
      exact hpre x (List.mem_cons_of_mem g hx)
    rw [List.cons_append, createFilesLoop_cons_ok env pid g _ s hg]
    obtain ⟨ih1, ih2⟩ := ih rest
      { s with
        files := ainsert (mkId s.nextId)
          (genRecord (mkId s.nextId) pid g) s.files,
        nextId := s.nextId + 1,
        mirror := s.mirror ++ [MirrorOp.createFile pid g.path g.content] } hpre'
    rcases hrec : createFilesLoop env pid (pre' ++ gf :: rest)
      { s with
        files := ainsert (mkId s.nextId)
          (genRecord (mkId s.nextId) pid g) s.files,
        nextId := s.nextId + 1,
        mirror := s.mirror ++ [MirrorOp.createFile pid g.path g.content] }
      with ⟨o, s3⟩
    rw [hrec] at ih1 ih2
    dsimp only at ih1 ih2
    subst ih1
    constructor
    · rfl
    · intro i hi
      cases i with
      | zero =>
        have hk : ∀ m, mkId s.nextId = mkId m → m < s.nextId + 1 := by
          intro m hm
          have := mkId_injective hm
          omega
        have hpres := createFilesLoop_lookup_preserved env pid (pre' ++ gf :: rest)
          { s with
            files := ainsert (mkId s.nextId)
              (genRecord (mkId s.nextId) pid g) s.files,
            nextId := s.nextId + 1,
            mirror := s.mirror ++ [MirrorOp.createFile pid g.path g.content] }
          (mkId s.nextId) hk
        rw [hrec] at hpres
        dsimp only at hpres
        show alookup (mkId (s.nextId + 0)) s3.files = _
        rw [Nat.add_zero]
        rw [hpres]
        exact alookup_ainsert_self _ _ _
      | succ j =>
        have hj : j < pre'.length := Nat.lt_of_succ_lt_succ hi
        have h2 := ih2 j hj
        show alookup (mkId (s.nextId + (j + 1))) s3.files = _
        rw [show s.nextId + (j + 1) = s.nextId + 1 + j from by omega]
        exact h2

/-- C9: `create_project` aborts before any persistence when skeleton
generation by the oracle throws (outcome fails, state unchanged: no
project record, no file records, no mirror entries); when a per-file
mirror step throws after the project record exists, failure is reported
but nothing is rolled back — the project record and every file record
created before the failing step remain in the store. -/
theorem create_project_partial_failure (env : Env) (uid : Option String)
    (name ptype : String) (descr tmpl : Option String) (s : St) :
    (env.projectStructure = none →
       executeAction env (.create_project name ptype descr tmpl) uid s =
         (plainFail createProjectErrMsg, s)) ∧
    (∀ (gfs pre rest : List GenFile) (gf : GenFile),
       env.projectStructure = some gfs →
       gfs = pre ++ gf :: rest →
       env.fsCreateProjectOk = true →
       (∀ g ∈ pre, env.fsCreateFileOk g.path = true) →
       env.fsCreateFileOk gf.path = false →
       (executeAction env (.create_project name ptype descr tmpl) uid s).1.success
         = false ∧
       alookup (mkId s.nextId)
           (executeAction env (.create_project name ptype descr tmpl) uid s).2.projects
         = some ⟨mkId s.nextId, name, ptype, projDescription ptype descr, []⟩ ∧
       (∀ i (hi : i < pre.length),
          alookup (mkId (s.nextId + 1 + i))
              (executeAction env (.create_project name ptype descr tmpl) uid s).2.files
            = some (genRecord (mkId (s.nextId + 1 + i)) (mkId s.nextId)
                (pre.get ⟨i, hi⟩)))) := by
  constructor
  · intro hps
    show createProject env name ptype descr s = (plainFail createProjectErrMsg, s)
    unfold createProject
    rw [hps]
  · intro gfs pre rest gf hps hsplit hfp hpre hgf
    subst hsplit
    have hstep : createProject env name ptype descr s =
        match createFilesLoop env (mkId s.nextId) (pre ++ gf :: rest)
            { s with
              projects := ainsert (mkId s.nextId)
                (⟨mkId s.nextId, name, ptype, projDescription ptype descr, []⟩ : Project)
                s.projects,
              nextId := s.nextId + 1,
              mirror := s.mirror ++ [MirrorOp.createProject (mkId s.nextId) name] } with
        | (some createdFiles, s3) =>
            (⟨true, "Proyecto \"" ++ name ++ "\" creado exitosamente.",
              some (.projectFiles
                ⟨mkId s.nextId, name, ptype, projDescription ptype descr, []⟩
                createdFiles), false, none, none⟩, s3)
        | (none, s3) => (plainFail createProjectErrMsg, s3) := by
      unfold createProject
      rw [hps]
      dsimp only
      rw [hfp]
      rfl
    obtain ⟨hfail, hidx⟩ := createFilesLoop_fails env (mkId s.nextId) gf hgf pre rest
      { s with
        projects := ainsert (mkId s.nextId)
          (⟨mkId s.nextId, name, ptype, projDescription ptype descr, []⟩ : Project)
          s.projects,
        nextId := s.nextId + 1,
        mirror := s.mirror ++ [MirrorOp.createProject (mkId s.nextId) name] } hpre
    rcases hrec : createFilesLoop env (mkId s.nextId) (pre ++ gf :: rest)
      { s with
        projects := ainsert (mkId s.nextId)
          (⟨mkId s.nextId, name, ptype, projDescription ptype descr, []⟩ : Project)
          s.projects,
        nextId := s.nextId + 1,
        mirror := s.mirror ++ [MirrorOp.createProject (mkId s.nextId) name] }
      with ⟨o, s3⟩
    rw [hrec] at hfail hidx hstep
    dsimp only at hfail
    subst hfail
    have hexec : executeAction env (.create_project name ptype descr tmpl) uid s
        = (plainFail createProjectErrMsg, s3) := hstep
    refine ⟨?_, ?_, ?_⟩
    · rw [hexec]
      rfl
    · rw [hexec]
      have hfr := (createFilesLoop_frame env (mkId s.nextId) (pre ++ gf :: rest)
        { s with
          projects := ainsert (mkId s.nextId)
            (⟨mkId s.nextId, name, ptype, projDescription ptype descr, []⟩ : Project)
            s.projects,
          nextId := s.nextId + 1,
          mirror := s.mirror ++ [MirrorOp.createProject (mkId s.nextId) name] }).1
      rw [hrec] at hfr
      dsimp only at hfr
      show alookup (mkId s.nextId) s3.projects = _
      rw [hfr]
      exact alookup_ainsert_self _ _ _
    · intro i hi
      have h2 := hidx i hi
      rw [hexec]
      exact h2

/-- Witness for `create_project_partial_failure`: with a throwing
skeleton oracle nothing persists; with a two-file skeleton whose second
mirror step throws, the outcome fails while the project record and the
first file record remain. -/
theorem create_project_partial_failure_witness :
    executeAction envGenFail (.create_project "p" "web" none none) none emptySt =
      (plainFail createProjectErrMsg, emptySt) ∧
    envMirrorFail.projectStructure = some [genA, genB] ∧
    (executeAction envMirrorFail (.create_project "p" "web" none none) none
        emptySt).1.success = false ∧
    alookup (mkId 0)
        (executeAction envMirrorFail (.create_project "p" "web" none none) none
          emptySt).2.projects
      = some ⟨mkId 0, "p", "web", projDescription "web" none, []⟩ ∧
    alookup (mkId 1)
        (executeAction envMirrorFail (.create_project "p" "web" none none) none
          emptySt).2.files
      = some (genRecord (mkId 1) (mkId 0) genA) := by
  have h1 := (create_project_partial_failure envGenFail none "p" "web" none none
    emptySt).1 rfl
  have h2 := (create_project_partial_failure envMirrorFail none "p" "web" none none
    emptySt).2 [genA, genB] [genA] [] genB rfl rfl rfl (by decide) (by decide)
  refine ⟨h1, rfl, h2.1, h2.2.1, ?_⟩
  exact h2.2.2 0 (by decide)
